import Mathlib

/-!
Verification of the MIME utility core (`net/base/mime_util.cc`):
extension → MIME-type resolution over the fixed primary/secondary tables and
an injected platform registry, MIME-type pattern matching with wildcard and
parameter rules, and MIME type-string parsing.

Strings are embedded as `List Char`; `std::string` operations are translated
to explicit list functions.  The platform registry (`PlatformMimeUtil`) is an
external collaborator and is embedded as a record of opaque functions.
-/

/-- Character strings of the embedded code (`std::string` as a list of chars). -/
abbrev Str := List Char

/-- ASCII lower-casing of one character (`base::ToLowerASCII`): maps A–Z to a–z
and leaves every other character unchanged. -/
def lowerChar (c : Char) : Char :=
  if 'A' ≤ c ∧ c ≤ 'Z' then Char.ofNat (c.toNat + 32) else c

/-- Case-insensitive whole-string equality, as used by `base::strncasecmp`
when the two lengths are already known to agree. -/
def eqCaseIns (a b : Str) : Bool :=
  a.map lowerChar == b.map lowerChar

/-- Case-insensitive starts-with (`StartsWithASCII(str, search, false)`):
true iff `s` is at least as long as `pre` and its first `pre.length`
characters equal `pre` up to ASCII case. -/
def startsWithCaseIns (s pre : Str) : Bool :=
  (s.take pre.length).map lowerChar == pre.map lowerChar

/-- Case-insensitive ends-with (`EndsWith(str, search, false)`). -/
def endsWithCaseIns (s suf : Str) : Bool :=
  decide (suf.length ≤ s.length) &&
    ((s.drop (s.length - suf.length)).map lowerChar == suf.map lowerChar)

/-- Auxiliary for `splitOnChar`: accumulates the current piece (reversed). -/
def splitOnCharAux (sep : Char) : Str → Str → List Str
  | [], acc => [acc.reverse]
  | c :: rest, acc =>
    if c = sep then acc.reverse :: splitOnCharAux sep rest []
    else splitOnCharAux sep rest (c :: acc)

/-- Splits a string at every occurrence of `sep` (the comma walk of
`FindMimeType` via `strcspn`, and `base::SplitString` on one character).
Empty pieces are kept: `"a,"` yields `["a", ""]`. -/
def splitOnChar (sep : Char) (s : Str) : List Str :=
  splitOnCharAux sep s []

/-- The part of `s` strictly before the first occurrence of `sep`
(`s.substr(0, s.find(sep))`, the whole string when `sep` is absent). -/
def beforeChar (sep : Char) : Str → Str
  | [] => []
  | c :: rest => if c = sep then [] else c :: beforeChar sep rest

/-- The part of `s` strictly after the first occurrence of `sep`
(`s.substr(s.find(sep) + 1)`); `none` when `sep` is absent. -/
def afterChar (sep : Char) : Str → Option Str
  | [] => none
  | c :: rest => if c = sep then some rest else afterChar sep rest

/-- Index of the first occurrence of `c` (`std::string::find`, `none` for
`npos`). -/
def findIdxChar (c : Char) : Str → Option Nat
  | [] => none
  | a :: rest => if a = c then some 0 else (findIdxChar c rest).map (· + 1)

/-- The text after the last `.` of `s`; `none` when `s` contains no `.`. -/
def afterLastDot : Str → Option Str
  | [] => none
  | c :: rest =>
    match afterLastDot rest with
    | some s => some s
    | none => if c = '.' then some rest else none

/-- One entry of a hard-coded mapping table (`struct MimeInfo`): a MIME type
and a comma-separated list of extensions. -/
structure MimeInfo where
  mime_type : Str
  extensions : Str

/-- Builds a `MimeInfo` from two string literals. -/
def mkMime (t e : String) : MimeInfo :=
  ⟨t.data, e.data⟩

/-- The `primary_mappings` table, transcribed entry for entry. -/
def primary_mappings : List MimeInfo := [
  mkMime ("text/html") ("html,htm,shtml,shtm"),
  mkMime ("text/css") ("css"),
  mkMime ("text/xml") ("xml"),
  mkMime ("image/gif") ("gif"),
  mkMime ("image/jpeg") ("jpeg,jpg"),
  mkMime ("image/webp") ("webp"),
  mkMime ("image/png") ("png"),
  mkMime ("video/mp4") ("mp4,m4v"),
  mkMime ("audio/x-m4a") ("m4a"),
  mkMime ("audio/mp3") ("mp3"),
  mkMime ("video/ogg") ("ogv,ogm"),
  mkMime ("audio/ogg") ("ogg,oga,opus"),
  mkMime ("video/webm") ("webm"),
  mkMime ("audio/webm") ("webm"),
  mkMime ("audio/wav") ("wav"),
  mkMime ("application/xhtml+xml") ("xhtml,xht,xhtm"),
  mkMime ("application/x-chrome-extension") ("crx"),
  mkMime ("multipart/related") ("mhtml,mht")]

/-- The `secondary_mappings` table, transcribed entry for entry. -/
def secondary_mappings : List MimeInfo := [
  mkMime ("application/octet-stream") ("exe,com,bin"),
  mkMime ("application/gzip") ("gz"),
  mkMime ("application/pdf") ("pdf"),
  mkMime ("application/postscript") ("ps,eps,ai"),
  mkMime ("application/javascript") ("js"),
  mkMime ("application/font-woff") ("woff"),
  mkMime ("image/bmp") ("bmp"),
  mkMime ("image/x-icon") ("ico"),
  mkMime ("image/vnd.microsoft.icon") ("ico"),
  mkMime ("image/jpeg") ("jfif,pjpeg,pjp"),
  mkMime ("image/tiff") ("tiff,tif"),
  mkMime ("image/x-xbitmap") ("xbm"),
  mkMime ("image/svg+xml") ("svg,svgz"),
  mkMime ("image/x-png") ("png"),
  mkMime ("message/rfc822") ("eml"),
  mkMime ("text/plain") ("txt,text"),
  mkMime ("text/html") ("ehtml"),
  mkMime ("application/rss+xml") ("rss"),
  mkMime ("application/rdf+xml") ("rdf"),
  mkMime ("text/xml") ("xsl,xbl,xslt"),
  mkMime ("application/vnd.mozilla.xul+xml") ("xul"),
  mkMime ("application/x-shockwave-flash") ("swf,swl"),
  mkMime ("application/pkcs7-mime") ("p7m,p7c,p7z"),
  mkMime ("application/pkcs7-signature") ("p7s"),
  mkMime ("application/x-mpegurl") ("m3u8"),
  mkMime ("application/epub+zip") ("epub")]

/-- One comma-separated entry matches the extension iff the lengths agree and
the contents agree case-insensitively (`end_pos == ext_len &&
base::strncasecmp(extensions, ext, ext_len) == 0` in `FindMimeType`). -/
def extEntryMatches (ext entry : Str) : Bool :=
  entry.length == ext.length && entry.map lowerChar == ext.map lowerChar

/-- A table row matches the extension iff one of its comma-separated entries
matches (inner loop of `FindMimeType`). -/
def mappingMatches (ext : Str) (m : MimeInfo) : Bool :=
  (splitOnChar ',' m.extensions).any (fun e => extEntryMatches ext e)

/-- Linear scan of a mapping table (`FindMimeType`): the MIME type of the
first row with a matching comma-separated entry, `none` when no row matches. -/
def findMimeType : List MimeInfo → Str → Option Str
  | [], _ => none
  | m :: rest, ext =>
    if mappingMatches ext m then some m.mime_type else findMimeType rest ext

/-- The external platform collaborator (`PlatformMimeUtil`): an opaque
extension → type lookup and an opaque type → extension-set lookup. -/
structure PlatformRegistry where
  typeForExtension : Str → Option Str
  extensionsForType : Str → Finset Str

/-- The hard length ceiling `kMaxFilePathSize` of
`GetMimeTypeFromExtensionHelper`. -/
def kMaxFilePathSize : Nat := 65536

/-- Core of forward resolution (`MimeUtil::GetMimeTypeFromExtensionHelper`),
generalised over the two tables so that non-consultation can be stated:
reject over-long extensions, then primary table, then (optionally) the
platform registry, then the secondary table. -/
def getMimeTypeFromExtensionHelperGen (prim sec : List MimeInfo)
    (pr : PlatformRegistry) (ext : Str) (includePlatform : Bool) : Option Str :=
  if kMaxFilePathSize < ext.length then none
  else
    match findMimeType prim ext with
    | some t => some t
    | none =>
      match (if includePlatform then pr.typeForExtension ext else none) with
      | some t => some t
      | none => findMimeType sec ext

/-- `MimeUtil::GetMimeTypeFromExtensionHelper` with the fixed tables. -/
def getMimeTypeFromExtensionHelper (pr : PlatformRegistry) (ext : Str)
    (includePlatform : Bool) : Option Str :=
  getMimeTypeFromExtensionHelperGen primary_mappings secondary_mappings
    pr ext includePlatform

/-- `MimeUtil::GetMimeTypeFromExtension` (`includePlatform = true`). -/
def getMimeTypeFromExtension (pr : PlatformRegistry) (ext : Str) : Option Str :=
  getMimeTypeFromExtensionHelper pr ext true

/-- `MimeUtil::GetWellKnownMimeTypeFromExtension`
(`includePlatform = false`). -/
def getWellKnownMimeTypeFromExtension (pr : PlatformRegistry) (ext : Str) :
    Option Str :=
  getMimeTypeFromExtensionHelper pr ext false

/-- Modelled from the spec: `base::FilePath::Extension` of
`base/files/file_path.cc` is not part of the source snapshot; per the spec,
`resolveFromFilePath` "extracts the final extension component of a file path
(text after the last `.`); if the path has no extension, returns NotFound". -/
def pathFinalExtension (path : Str) : Option Str :=
  afterLastDot path

/-- `MimeUtil::GetMimeTypeFromFile`: take the path's final extension; an
extension-less path resolves to nothing, otherwise resolve the extension with
the platform registry included. -/
def getMimeTypeFromFile (pr : PlatformRegistry) (path : Str) : Option Str :=
  match pathFinalExtension path with
  | none => none
  | some ext => getMimeTypeFromExtension pr ext

/-- A platform registry that knows nothing (a test stub). -/
def emptyRegistry : PlatformRegistry :=
  ⟨fun _ => none, fun _ => ∅⟩

/-- A platform registry that maps the extension `gz` to a type of its own,
different from the secondary table's `application/gzip`. -/
def overridingRegistry : PlatformRegistry :=
  ⟨fun e => if e == ("gz").data then some (("application/x-other").data)
            else none,
   fun _ => ∅⟩

example : getMimeTypeFromExtension emptyRegistry (("html").data)
    = some (("text/html").data) := by decide
example : getMimeTypeFromExtension emptyRegistry (("HtMl").data)
    = some (("text/html").data) := by decide
example : getMimeTypeFromExtension emptyRegistry (("gz").data)
    = some (("application/gzip").data) := by decide
example : getMimeTypeFromExtension overridingRegistry (("gz").data)
    = some (("application/x-other").data) := by decide
example : getWellKnownMimeTypeFromExtension overridingRegistry (("gz").data)
    = some (("application/gzip").data) := by decide
example : getMimeTypeFromExtension emptyRegistry (("nonexistent").data)
    = none := by decide
example : getMimeTypeFromFile emptyRegistry (("archive.tar.gz").data)
    = some (("application/gzip").data) := by decide
example : getMimeTypeFromFile emptyRegistry (("noextension").data)
    = none := by decide

/-- Looks a key up in a parameter map (exact key comparison; keys were stored
lower-cased). -/
def lookupParam (m : List (Str × Str)) (k : Str) : Option (Str × Str) :=
  m.find? (fun q => q.1 == k)

/-- Inserts a key/value pair into a parameter map with `std::map` semantics:
a later pair with an existing key overwrites the stored value. -/
def mapInsert (m : List (Str × Str)) (k v : Str) : List (Str × Str) :=
  if m.any (fun q => q.1 == k) then
    m.map (fun q => if q.1 == k then (k, v) else q)
  else m ++ [(k, v)]

/-- Modelled from the spec: `base::SplitStringIntoKeyValuePairs` of
`base/strings/string_split.cc` is not part of the source snapshot; per the
spec, a parameter block is parsed by "split on `;`, then `=` per pair".  A
piece without `=` yields an empty value. -/
def splitKeyValuePiece (piece : Str) : Str × Str :=
  (beforeChar '=' piece, (afterChar '=' piece).getD [])

/-- Builds the `ParameterMap` of a parameter block (the text after the first
`;`): each `;`-piece is split at its first `=`, the key is lower-cased, and
pairs are inserted with `std::map` overwrite semantics. -/
def buildParamMap (block : Str) : List (Str × Str) :=
  (splitOnChar ';' block).foldl
    (fun m piece =>
      mapInsert m ((splitKeyValuePiece piece).1.map lowerChar)
        (splitKeyValuePiece piece).2) []

/-- `MatchesMimeTypeParameters`: trivially true when the pattern has no `;`;
false when only the pattern has one; otherwise every pattern key (lower-cased)
must be present in the candidate's map with a case-sensitively equal value,
and the pattern map must not have more distinct keys than the candidate's. -/
def matchesMimeTypeParameters (pat mt : Str) : Bool :=
  match afterChar ';' pat with
  | none => true
  | some patBlock =>
    match afterChar ';' mt with
    | none => false
    | some mtBlock =>
      if (buildParamMap mtBlock).length < (buildParamMap patBlock).length then
        false
      else
        (buildParamMap patBlock).all (fun kv =>
          match lookupParam (buildParamMap mtBlock) kv.1 with
          | none => false
          | some q => q.2 == kv.2)

/-- `MimeUtil::MatchesMimeType`: empty pattern never matches; `*` and `*/*`
base patterns always match the base; a star-free base pattern must equal the
candidate base case-insensitively; a base pattern with a `*` is split at the
first `*` into a prefix/suffix pair checked case-insensitively after a length
guard; finally the parameter check runs. -/
def matchesMimeType (pat mt : Str) : Bool :=
  if pat.isEmpty then false
  else if beforeChar ';' pat == ("*").data
      || beforeChar ';' pat == ("*/*").data then
    matchesMimeTypeParameters pat mt
  else
    match findIdxChar '*' (beforeChar ';' pat) with
    | none =>
      if (beforeChar ';' pat).length == (beforeChar ';' mt).length
          && eqCaseIns (beforeChar ';' pat) (beforeChar ';' mt) then
        matchesMimeTypeParameters pat mt
      else false
    | some star =>
      if (beforeChar ';' mt).length < (beforeChar ';' pat).length - 1 then
        false
      else if !(startsWithCaseIns (beforeChar ';' mt)
          ((beforeChar ';' pat).take star)) then false
      else if ((beforeChar ';' pat).drop (star + 1)) != []
          && !(endsWithCaseIns (beforeChar ';' mt)
            ((beforeChar ';' pat).drop (star + 1))) then false
      else matchesMimeTypeParameters pat mt

example : matchesMimeType (("*/*").data) (("anything/whatever").data)
    = true := by decide
example : matchesMimeType ([]) (("text/plain").data) = false := by decide
example : matchesMimeType (("text/*").data) (("text/plain").data)
    = true := by decide
example : matchesMimeType (("application/*+xml").data)
    (("application/atom+xml").data) = true := by decide
example : matchesMimeType (("application/*+xml").data)
    (("application/xml").data) = false := by decide
example : matchesMimeType (("text/plain;charset=utf-8").data)
    (("text/plain;Charset=UTF-8;foo=bar").data) = false := by decide
example : matchesMimeType (("text/plain;charset=utf-8").data)
    (("text/plain;Charset=utf-8;foo=bar").data) = true := by decide
example : matchesMimeType (("text/plain;charset=utf-8").data)
    (("text/plain;charset=UTF-8").data) = false := by decide

/-- Modelled from the spec: `HttpUtil::IsToken` of `net/http/http_util.cc` is
not part of the source snapshot; per the spec, a token has "no separators, no
control characters, no whitespace" and is non-empty.  Separator characters
are the HTTP 1.1 separators. -/
def isTokenChar (c : Char) : Bool :=
  decide (31 < c.toNat) && decide (c.toNat < 127) &&
    !((" \t()<>@,;:\\\"/[]?=\x7b\x7d").data.contains c)

/-- An HTTP token: non-empty and made of token characters only. -/
def isToken (s : Str) : Bool :=
  !s.isEmpty && s.all isTokenChar

/-- `MimeUtil::ParseMimeTypeWithoutParameter`: split on `/`; succeed iff the
split yields exactly two components that are both HTTP tokens, returning the
components unchanged. -/
def parseMimeTypeWithoutParameter (s : Str) : Option (Str × Str) :=
  match splitOnChar '/' s with
  | [a, b] => if isToken a && isToken b then some (a, b) else none
  | _ => none

example : parseMimeTypeWithoutParameter (("text/html").data)
    = some ((("text").data, ("html").data)) := by decide
example : parseMimeTypeWithoutParameter (("TeXt/HtMl").data)
    = some ((("TeXt").data, ("HtMl").data)) := by decide
example : parseMimeTypeWithoutParameter (("bogus").data) = none := by decide
example : parseMimeTypeWithoutParameter (("a/b/c").data) = none := by decide

/-- The `legal_top_level_types` table. -/
def legal_top_level_types : List Str :=
  (["application", "audio", "example", "image", "message", "model",
    "multipart", "text", "video"]).map String.data

/-- `MimeUtil::IsValidTopLevelMimeType`: the lower-cased input equals one of
the legal top-level types, or the input is longer than two characters and
starts with `x-` case-insensitively. -/
def isValidTopLevelMimeType (s : Str) : Bool :=
  legal_top_level_types.any (fun t => s.map lowerChar == t)
    || (decide (2 < s.length) && startsWithCaseIns s (("x-").data))

example : isValidTopLevelMimeType (("x-custom").data) = true := by decide
example : isValidTopLevelMimeType (("bogus").data) = false := by decide
example : isValidTopLevelMimeType (("TEXT").data) = true := by decide

/-- The `kStandardImageTypes` table. -/
def kStandardImageTypes : List Str :=
  (["image/bmp", "image/cis-cod", "image/gif", "image/ief", "image/jpeg",
    "image/webp", "image/pict", "image/pipeg", "image/png", "image/svg+xml",
    "image/tiff", "image/vnd.microsoft.icon", "image/x-cmu-raster",
    "image/x-cmx", "image/x-icon", "image/x-portable-anymap",
    "image/x-portable-bitmap", "image/x-portable-graymap",
    "image/x-portable-pixmap", "image/x-rgb", "image/x-xbitmap",
    "image/x-xpixmap", "image/x-xwindowdump"]).map String.data

/-- The `kStandardAudioTypes` table. -/
def kStandardAudioTypes : List Str :=
  (["audio/aac", "audio/aiff", "audio/amr", "audio/basic", "audio/midi",
    "audio/mp3", "audio/mp4", "audio/mpeg", "audio/mpeg3", "audio/ogg",
    "audio/vorbis", "audio/wav", "audio/webm", "audio/x-m4a",
    "audio/x-ms-wma", "audio/vnd.rn-realaudio", "audio/vnd.wave"]).map
    String.data

/-- The `kStandardVideoTypes` table. -/
def kStandardVideoTypes : List Str :=
  (["video/avi", "video/divx", "video/flc", "video/mp4", "video/mpeg",
    "video/ogg", "video/quicktime", "video/sd-video", "video/webm",
    "video/x-dv", "video/x-m4v", "video/x-mpeg", "video/x-ms-asf",
    "video/x-ms-wmv"]).map String.data

/-- One `StandardType` group: a leading MIME type (`none` embeds the `NULL`
sentinel) and its member standard types. -/
structure StandardType where
  leading_mime_type : Option Str
  standard_types : List Str

/-- The `kStandardTypes` table: the three media groups followed by the
`{ NULL, NULL, 0 }` sentinel. -/
def kStandardTypes : List StandardType := [
  ⟨some (("image/").data), kStandardImageTypes⟩,
  ⟨some (("audio/").data), kStandardAudioTypes⟩,
  ⟨some (("video/").data), kStandardVideoTypes⟩,
  ⟨none, []⟩]

/-- The selection loop of `GetExtensionsForMimeType`: the first group whose
`leading_mime_type` equals the wanted leading type; the loop falls through to
the last entry — the sentinel with an empty member list — when none matches. -/
def selectStandardType (leading : Str) : StandardType :=
  match kStandardTypes.find? (fun t =>
    match t.leading_mime_type with
    | some l => l == leading
    | none => false) with
  | some t => t
  | none => ⟨none, []⟩

/-- `GetExtensionsFromHardCodedMappings`: every extension of every table row
whose MIME type starts with `leading` case-insensitively, in table order. -/
def getExtensionsFromHardCodedMappings (mappings : List MimeInfo)
    (leading : Str) : List Str :=
  mappings.foldl
    (fun acc m =>
      if startsWithCaseIns m.mime_type leading then
        acc ++ splitOnChar ',' m.extensions
      else acc) []

/-- `GetExtensionsForMimeType` (with `GetExtensionsHelper` inlined at its
single call site): `*/*` and `*` yield the empty set; a lower-cased `type/*`
pattern unions the platform extensions of the selected group's member types
with the hard-coded extensions under the leading type; a concrete type unions
the platform extensions of the type itself with the hard-coded extensions
under the whole lower-cased pattern.  The hash set is embedded as a
`Finset`. -/
def getExtensionsForMimeType (pr : PlatformRegistry) (u : Str) : Finset Str :=
  if u == ("*/*").data || u == ("*").data then ∅
  else
    if endsWithCaseIns (u.map lowerChar) (("/*").data) then
      ((selectStandardType
          ((u.map lowerChar).take ((u.map lowerChar).length - 1))).standard_types.foldl
        (fun acc t => acc ∪ pr.extensionsForType t) ∅)
        ∪ (getExtensionsFromHardCodedMappings primary_mappings
            ((u.map lowerChar).take ((u.map lowerChar).length - 1))).toFinset
        ∪ (getExtensionsFromHardCodedMappings secondary_mappings
            ((u.map lowerChar).take ((u.map lowerChar).length - 1))).toFinset
    else
      (pr.extensionsForType (u.map lowerChar))
        ∪ (getExtensionsFromHardCodedMappings primary_mappings
            (u.map lowerChar)).toFinset
        ∪ (getExtensionsFromHardCodedMappings secondary_mappings
            (u.map lowerChar)).toFinset

example : getExtensionsForMimeType emptyRegistry (("*/*").data) = ∅ := by
  decide
example : getExtensionsForMimeType emptyRegistry (("*").data) = ∅ := by decide
example : (("png").data) ∈ getExtensionsForMimeType emptyRegistry
    (("image/*").data) := by decide
example : (("jpeg").data) ∈ getExtensionsForMimeType emptyRegistry
    (("image/*").data) := by decide
example : (("gif").data) ∈ getExtensionsForMimeType emptyRegistry
    (("image/*").data) := by decide
example : getExtensionsForMimeType emptyRegistry (("font/*").data) = ∅ := by
  decide

/-- Table scanning is `List.find?` followed by projection to the MIME type. -/
theorem findMimeType_eq_find? (ms : List MimeInfo) (ext : Str) :
    findMimeType ms ext
      = (ms.find? (mappingMatches ext)).map (fun m => m.mime_type) := by
  induction ms with
  | nil => rfl
  | cons m rest ih =>
    by_cases h : mappingMatches ext m
    · simp [findMimeType, List.find?_cons_of_pos, h]
    · simp [findMimeType, List.find?_cons_of_neg, h, ih]

/-- C6: every extension longer than 65536 code units resolves to `none` under
both entry points, for any tables and any platform registry — the ceiling
fires before the tables are scanned and before the registry is queried. -/
theorem C6_length_ceiling (prim sec : List MimeInfo) (pr : PlatformRegistry)
    (ext : Str) (b : Bool) (h : kMaxFilePathSize < ext.length) :
    getMimeTypeFromExtensionHelperGen prim sec pr ext b = none
    ∧ getMimeTypeFromExtension pr ext = none
    ∧ getWellKnownMimeTypeFromExtension pr ext = none := by
  refine ⟨?_, ?_, ?_⟩ <;>
    simp [getMimeTypeFromExtension, getWellKnownMimeTypeFromExtension,
      getMimeTypeFromExtensionHelper, getMimeTypeFromExtensionHelperGen,
      if_pos h]

/-- Witness for C6 at a concrete 65537-character extension. -/
theorem C6_witness :
    getMimeTypeFromExtension emptyRegistry (List.replicate 65537 'a')
      = none :=
  (C6_length_ceiling primary_mappings secondary_mappings emptyRegistry
    (List.replicate 65537 'a') true
    (by rw [List.length_replicate]; decide)).2.1

/-- C3 as stated is false: a platform registry that maps `gz` to its own type
makes `resolveExtensionToType` return that type while
`resolveWellKnownExtensionToType` returns the secondary table's
`application/gzip`. -/
theorem C3_counterexample :
    ¬ (∀ (pr : PlatformRegistry) (ext t : Str),
        getWellKnownMimeTypeFromExtension pr ext = some t →
        getMimeTypeFromExtension pr ext = some t) := by
  intro h
  have h1 := h overridingRegistry (("gz").data) (("application/gzip").data)
    (by decide)
  have h2 : getMimeTypeFromExtension overridingRegistry (("gz").data)
      = some (("application/x-other").data) := by decide
  exact absurd (h1.symm.trans h2) (by decide)

/-- C3 (amended): `resolveWellKnownExtensionToType` never consults the
platform registry — its result is identical under any two registries — and
whenever the registry has no mapping for the extension, any type it returns
is also returned by `resolveExtensionToType`. -/
theorem C3_wellknown_platform_independent :
    (∀ (pr₁ pr₂ : PlatformRegistry) (ext : Str),
      getWellKnownMimeTypeFromExtension pr₁ ext
        = getWellKnownMimeTypeFromExtension pr₂ ext)
    ∧ (∀ (pr : PlatformRegistry) (ext : Str),
        pr.typeForExtension ext = none →
        ∀ t, getWellKnownMimeTypeFromExtension pr ext = some t →
          getMimeTypeFromExtension pr ext = some t) := by
  constructor
  · intro pr₁ pr₂ ext
    rfl
  · intro pr ext hp t hw
    have heq : getWellKnownMimeTypeFromExtension pr ext
        = getMimeTypeFromExtension pr ext := by
      simp [getWellKnownMimeTypeFromExtension, getMimeTypeFromExtension,
        getMimeTypeFromExtensionHelper, getMimeTypeFromExtensionHelperGen, hp]
    rw [← heq]
    exact hw

/-- Witness for C3 (amended) at the extension `gz` and the empty registry. -/
theorem C3_witness :
    getMimeTypeFromExtension emptyRegistry (("gz").data)
      = some (("application/gzip").data) :=
  C3_wellknown_platform_independent.2 emptyRegistry (("gz").data) (by decide)
    (("application/gzip").data) (by decide)

/-- C4: file-path resolution takes the text after the last `.` and resolves
it with the platform registry included; `archive.tar.gz` is resolved through
the extension `gz` alone, and a path with no extension yields `none` under
every registry. -/
theorem C4_file_resolution (pr : PlatformRegistry) (path : Str) :
    getMimeTypeFromFile pr (("archive.tar.gz").data)
      = getMimeTypeFromExtension pr (("gz").data)
    ∧ (pathFinalExtension path = none → getMimeTypeFromFile pr path = none)
    ∧ (∀ ext, pathFinalExtension path = some ext →
        getMimeTypeFromFile pr path
          = getMimeTypeFromExtensionHelper pr ext true) := by
  refine ⟨rfl, ?_, ?_⟩
  · intro h
    simp [getMimeTypeFromFile, h]
  · intro ext h
    simp [getMimeTypeFromFile, h, getMimeTypeFromExtension]

/-- Witness for C4 at a concrete extension-less path. -/
theorem C4_witness :
    getMimeTypeFromFile emptyRegistry (("noext").data) = none :=
  (C4_file_resolution emptyRegistry (("noext").data)).2.1 (by decide)

/-- C1: within the length ceiling, a primary match is returned as is (for any
registry and either entry point); with primary empty-handed and the platform
included, a positive registry answer is returned ahead of the secondary
table; with the registry silent or excluded, the result is exactly the
secondary scan.  Table scanning returns the MIME type of the first matching
row, and a row matches iff one of its comma-separated entries equals the
extension in length and case-insensitive content. -/
theorem C1_forward_resolution_precedence (pr : PlatformRegistry) (ext : Str)
    (b : Bool) (h : ext.length ≤ kMaxFilePathSize) :
    (∀ t, findMimeType primary_mappings ext = some t →
        getMimeTypeFromExtensionHelper pr ext b = some t)
    ∧ (findMimeType primary_mappings ext = none →
        ∀ t, pr.typeForExtension ext = some t →
          getMimeTypeFromExtensionHelper pr ext true = some t)
    ∧ (findMimeType primary_mappings ext = none →
        (b = false ∨ pr.typeForExtension ext = none) →
          getMimeTypeFromExtensionHelper pr ext b
            = findMimeType secondary_mappings ext)
    ∧ (∀ (ms : List MimeInfo) (t : Str), findMimeType ms ext = some t ↔
        ∃ pre m post, ms = pre ++ m :: post ∧ mappingMatches ext m = true ∧
          t = m.mime_type ∧ ∀ m' ∈ pre, mappingMatches ext m' = false)
    ∧ (∀ m, mappingMatches ext m = true ↔
        ∃ e ∈ splitOnChar ',' m.extensions,
          e.length = ext.length ∧ e.map lowerChar = ext.map lowerChar) := by
  have hnotlt : ¬ kMaxFilePathSize < ext.length := Nat.not_lt.mpr h
  refine ⟨?_, ?_, ?_, ?_, ?_⟩
  · intro t ht
    simp [getMimeTypeFromExtensionHelper, getMimeTypeFromExtensionHelperGen,
      hnotlt, ht]
  · intro hnone t hp
    simp [getMimeTypeFromExtensionHelper, getMimeTypeFromExtensionHelperGen,
      hnotlt, hnone, hp]
  · intro hnone hcase
    rcases hcase with rfl | hp
    · simp [getMimeTypeFromExtensionHelper, getMimeTypeFromExtensionHelperGen,
        hnotlt, hnone]
    · cases b <;>
        simp [getMimeTypeFromExtensionHelper,
          getMimeTypeFromExtensionHelperGen, hnotlt, hnone, hp]
  · intro ms t
    rw [findMimeType_eq_find?, Option.map_eq_some']
    constructor
    · rintro ⟨m, hfind, rfl⟩
      rw [List.find?_eq_some] at hfind
      obtain ⟨hm, pre, post, rfl, hpre⟩ := hfind
      exact ⟨pre, m, post, rfl, hm, rfl,
        fun m' hm' => by simpa using hpre m' hm'⟩
    · rintro ⟨pre, m, post, rfl, hm, rfl, hpre⟩
      refine ⟨m, ?_, rfl⟩
      rw [List.find?_eq_some]
      exact ⟨hm, pre, post, rfl, fun a ha => by simp [hpre a ha]⟩
  · intro m
    simp [mappingMatches, extEntryMatches, List.any_eq_true, Bool.and_eq_true,
      beq_iff_eq]

/-- The per-key check of the parameter loop succeeds iff the candidate map
holds the pattern's key with the case-sensitively identical value. -/
theorem paramCheck_eq_true (tm : List (Str × Str)) (kv : Str × Str) :
    ((match lookupParam tm kv.1 with
      | none => false
      | some q => q.2 == kv.2) = true)
    ↔ lookupParam tm kv.1 = some ((kv.1, kv.2)) := by
  cases hq : lookupParam tm kv.1 with
  | none => simp
  | some q =>
    have hk : q.1 = kv.1 := by simpa using List.find?_some hq
    constructor
    · intro hv
      have hv' : q.2 = kv.2 := by simpa using hv
      have : q = ((kv.1, kv.2)) := by
        cases q
        simp_all
      simp [this]
    · intro hsome
      have : q = ((kv.1, kv.2)) := Option.some.inj hsome
      simp [this]

/-- C2 (amended): with both sides carrying a parameter block, the parameter
step succeeds iff the pattern map has no more distinct keys than the
candidate map and every pattern pair — its key stored lower-cased — is found
in the candidate map with the case-sensitively equal value; candidate pairs
under other keys are never consulted.  A pattern without `;` always passes,
a pattern with `;` against a candidate without one always fails, and on the
concrete inputs only a case change limited to the key keeps the match true. -/
theorem C2_parameter_matching (pat mt : Str) :
    (∀ pb tb, afterChar ';' pat = some pb → afterChar ';' mt = some tb →
      (matchesMimeTypeParameters pat mt = true ↔
        (buildParamMap pb).length ≤ (buildParamMap tb).length ∧
        ∀ kv ∈ buildParamMap pb,
          lookupParam (buildParamMap tb) kv.1 = some ((kv.1, kv.2))))
    ∧ (afterChar ';' pat = none → matchesMimeTypeParameters pat mt = true)
    ∧ (∀ pb, afterChar ';' pat = some pb → afterChar ';' mt = none →
        matchesMimeTypeParameters pat mt = false)
    ∧ matchesMimeType (("text/plain;charset=utf-8").data)
        (("text/plain;Charset=utf-8;foo=bar").data) = true
    ∧ matchesMimeType (("text/plain;charset=utf-8").data)
        (("text/plain;charset=UTF-8").data) = false := by
  refine ⟨?_, ?_, ?_, by decide, by decide⟩
  · intro pb tb hpb htb
    unfold matchesMimeTypeParameters
    rw [hpb, htb]
    by_cases hlt : (buildParamMap tb).length < (buildParamMap pb).length
    · simp only [if_pos hlt]
      constructor
      · intro hfalse
        exact absurd hfalse (by simp)
      · rintro ⟨hle, -⟩
        exact absurd hle (Nat.not_le.mpr hlt)
    · simp only [if_neg hlt, List.all_eq_true]
      constructor
      · intro hall
        exact ⟨Nat.le_of_not_lt hlt,
          fun kv hkv => (paramCheck_eq_true _ kv).mp (hall kv hkv)⟩
      · rintro ⟨-, hall⟩ kv hkv
        exact (paramCheck_eq_true _ kv).mpr (hall kv hkv)
  · intro hnone
    unfold matchesMimeTypeParameters
    rw [hnone]
  · intro pb hpb htnone
    unfold matchesMimeTypeParameters
    rw [hpb, htnone]

/-- C5: when the base pattern is neither `*` nor `*/*` and contains a `*` at
index `star`, the match equals: the candidate base is not shorter than the
pattern base length minus one, the candidate base starts case-insensitively
with the part before the `*`, it ends case-insensitively with the part after
the `*` unless that part is empty, and the parameter step succeeds.  The
`+xml` examples behave as claimed. -/
theorem C5_wildcard_segment (pat mt : Str) (star : Nat)
    (h0 : pat.isEmpty = false)
    (h1 : (beforeChar ';' pat == ("*").data) = false)
    (h2 : (beforeChar ';' pat == ("*/*").data) = false)
    (h3 : findIdxChar '*' (beforeChar ';' pat) = some star) :
    matchesMimeType pat mt =
      (!(decide ((beforeChar ';' mt).length
            < (beforeChar ';' pat).length - 1))
        && startsWithCaseIns (beforeChar ';' mt)
            ((beforeChar ';' pat).take star)
        && (((beforeChar ';' pat).drop (star + 1)) == []
            || endsWithCaseIns (beforeChar ';' mt)
                ((beforeChar ';' pat).drop (star + 1)))
        && matchesMimeTypeParameters pat mt)
    ∧ matchesMimeType (("application/*+xml").data)
        (("application/atom+xml").data) = true
    ∧ matchesMimeType (("application/*+xml").data)
        (("application/xml").data) = false := by
  refine ⟨?_, by decide, by decide⟩
  unfold matchesMimeType
  rw [h0, h1, h2, h3]
  simp only [Bool.false_eq_true, if_false, Bool.or_self]
  by_cases hlen : (beforeChar ';' mt).length < (beforeChar ';' pat).length - 1
  · simp [hlen]
  · simp only [if_neg hlen, hlen, decide_False, Bool.not_false,
      Bool.true_and, decide_eq_true_eq]
    cases hS : startsWithCaseIns (beforeChar ';' mt)
        ((beforeChar ';' pat).take star)
    · simp [hlen]
    · simp only [Bool.not_true, Bool.true_and]
      cases hR : ((beforeChar ';' pat).drop (star + 1)) == []
      · cases hE : endsWithCaseIns (beforeChar ';' mt)
            ((beforeChar ';' pat).drop (star + 1)) <;>
          simp [hlen, hR, hE, bne]
      · have hR' : ((beforeChar ';' pat).drop (star + 1)) = [] := by
          simpa using hR
        simp [hlen, hR', bne]

/-- Witness for C5 at the pattern `application/*+xml` and the candidate
`application/atom+xml` (the `*` sits at index 12 of the base pattern). -/
theorem C5_witness :
    matchesMimeType (("application/*+xml").data)
      (("application/atom+xml").data) = true :=
  (C5_wildcard_segment (("application/*+xml").data)
    (("application/atom+xml").data) 12
    (by decide) (by decide) (by decide) (by decide)).2.1

/-- C7: the patterns `*/*` and `*` enumerate to the empty set under every
registry, and `image/*` yields a set — deduplicated by construction — that
contains `png`, `jpeg` and `gif` whatever the registry returns, because those
extensions come from the fixed tables. -/
theorem C7_extensions_for_image_star (pr : PlatformRegistry) :
    getExtensionsForMimeType pr (("*/*").data) = ∅
    ∧ getExtensionsForMimeType pr (("*").data) = ∅
    ∧ (("png").data) ∈ getExtensionsForMimeType pr (("image/*").data)
    ∧ (("jpeg").data) ∈ getExtensionsForMimeType pr (("image/*").data)
    ∧ (("gif").data) ∈ getExtensionsForMimeType pr (("image/*").data) := by
  have hu : getExtensionsForMimeType pr (("image/*").data)
      = (kStandardImageTypes.foldl
          (fun acc t => acc ∪ pr.extensionsForType t) ∅)
        ∪ (getExtensionsFromHardCodedMappings primary_mappings
            (("image/").data)).toFinset
        ∪ (getExtensionsFromHardCodedMappings secondary_mappings
            (("image/").data)).toFinset := rfl
  refine ⟨rfl, rfl, ?_, ?_, ?_⟩ <;>
    · rw [hu]
      exact Finset.mem_union_left _ (Finset.mem_union_right _ (by decide))

/-- C10: a `type/*` pattern whose lower-cased leading type is none of
`image/`, `audio/`, `video/` selects the sentinel group, so no platform query
is made for any member type and the result is exactly the deduplicated
hard-coded extensions under that leading type — for `font/*`, the empty
set. -/
theorem C10_fallback_group (pr : PlatformRegistry) (u : Str)
    (h1 : (u == ("*/*").data) = false)
    (h2 : (u == ("*").data) = false)
    (h3 : endsWithCaseIns (u.map lowerChar) (("/*").data) = true)
    (h4 : ((u.map lowerChar).take ((u.map lowerChar).length - 1)
        == ("image/").data) = false)
    (h5 : ((u.map lowerChar).take ((u.map lowerChar).length - 1)
        == ("audio/").data) = false)
    (h6 : ((u.map lowerChar).take ((u.map lowerChar).length - 1)
        == ("video/").data) = false) :
    getExtensionsForMimeType pr u =
      (getExtensionsFromHardCodedMappings primary_mappings
        ((u.map lowerChar).take ((u.map lowerChar).length - 1))).toFinset
      ∪ (getExtensionsFromHardCodedMappings secondary_mappings
        ((u.map lowerChar).take ((u.map lowerChar).length - 1))).toFinset
    ∧ getExtensionsForMimeType pr (("font/*").data) = ∅ := by
  constructor
  · have hsel : selectStandardType
        ((u.map lowerChar).take ((u.map lowerChar).length - 1)) = ⟨none, []⟩ := by
      have h4' : ((("image/").data : Str)
          == (u.map lowerChar).take ((u.map lowerChar).length - 1)) = false := by
        rw [beq_eq_false_iff_ne] at h4 ⊢
        exact Ne.symm h4
      have h5' : ((("audio/").data : Str)
          == (u.map lowerChar).take ((u.map lowerChar).length - 1)) = false := by
        rw [beq_eq_false_iff_ne] at h5 ⊢
        exact Ne.symm h5
      have h6' : ((("video/").data : Str)
          == (u.map lowerChar).take ((u.map lowerChar).length - 1)) = false := by
        rw [beq_eq_false_iff_ne] at h6 ⊢
        exact Ne.symm h6
      simp only [List.length_map] at h4' h5' h6'
      simp [selectStandardType, kStandardTypes, List.find?, h4', h5', h6']
    unfold getExtensionsForMimeType
    rw [h1, h2]
    simp only [Bool.or_self, Bool.false_eq_true, if_false, h3, if_true, hsel,
      List.foldl_nil, Finset.empty_union]
  · rfl
/-- C2 as stated is false: the claimed-true example changes the case of the
parameter value as well, and the value comparison is case-sensitive. -/
theorem C2_counterexample :
    matchesMimeType (("text/plain;charset=utf-8").data)
      (("text/plain;Charset=UTF-8;foo=bar").data) = false := by
  decide

/-- Witness for C2 (amended) on the corrected concrete parameter blocks. -/
theorem C2_witness :
    matchesMimeTypeParameters (("text/plain;charset=utf-8").data)
      (("text/plain;Charset=utf-8;foo=bar").data) = true :=
  ((C2_parameter_matching (("text/plain;charset=utf-8").data)
      (("text/plain;Charset=utf-8;foo=bar").data)).1
    (("charset=utf-8").data) (("Charset=utf-8;foo=bar").data)
    (by decide) (by decide)).mpr (by decide)

/-- Witness for C1 at the extension `html`, the overriding registry, and the
platform-inclusive entry point: the primary table's `text/html` wins. -/
theorem C1_witness :
    getMimeTypeFromExtensionHelper overridingRegistry (("html").data) true
      = some (("text/html").data) :=
  (C1_forward_resolution_precedence overridingRegistry (("html").data) true
    (by decide)).1 (("text/html").data) (by decide)

/-- Witness for C10 at the pattern `font/*` and the empty registry. -/
theorem C10_witness :
    getExtensionsForMimeType emptyRegistry (("font/*").data) = ∅ :=
  (C10_fallback_group emptyRegistry (("font/*").data)
    (by decide) (by decide) (by decide) (by decide) (by decide) (by decide)).2

/-- Witness for C7 at the empty registry. -/
theorem C7_witness :
    (("png").data) ∈ getExtensionsForMimeType emptyRegistry
      (("image/*").data) :=
  (C7_extensions_for_image_star emptyRegistry).2.2.1


/-- When the split on `/` yields exactly two components, the parser reduces
to the token test on those components. -/
theorem parse_two (s x y : Str) (hsp : splitOnChar '/' s = [x, y]) :
    parseMimeTypeWithoutParameter s
      = (if isToken x && isToken y then some ((x, y)) else none) := by
  unfold parseMimeTypeWithoutParameter
  rw [hsp]

/-- When the split on `/` does not yield exactly two components, the parser
fails. -/
theorem parse_badshape (s : Str) (h : ∀ x y, splitOnChar '/' s ≠ [x, y]) :
    parseMimeTypeWithoutParameter s = none := by
  unfold parseMimeTypeWithoutParameter
  rcases hsp : splitOnChar '/' s with _ | ⟨x, _ | ⟨y, _ | ⟨z, rest⟩⟩⟩
  · rfl
  · rfl
  · exact absurd hsp (h x y)
  · rfl

/-- C8: parsing succeeds exactly when splitting on `/` yields two components
that are both HTTP tokens, and the two components are returned verbatim —
not lower-cased; `text/html` parses, `bogus` and `a/b/c` fail. -/
theorem C8_parse_type (s : Str) :
    (∀ x y, splitOnChar '/' s = [x, y] →
      parseMimeTypeWithoutParameter s
        = (if isToken x && isToken y then some ((x, y)) else none))
    ∧ ((∃ r, parseMimeTypeWithoutParameter s = some r) ↔
        ∃ x y, splitOnChar '/' s = [x, y]
          ∧ isToken x = true ∧ isToken y = true)
    ∧ (∀ x y, parseMimeTypeWithoutParameter s = some ((x, y)) →
        splitOnChar '/' s = [x, y])
    ∧ parseMimeTypeWithoutParameter (("text/html").data)
        = some (((("text").data, ("html").data)))
    ∧ parseMimeTypeWithoutParameter (("TeXt/HtMl").data)
        = some (((("TeXt").data, ("HtMl").data)))
    ∧ parseMimeTypeWithoutParameter (("bogus").data) = none
    ∧ parseMimeTypeWithoutParameter (("a/b/c").data) = none := by
  refine ⟨parse_two s, ?_, ?_, by decide, by decide, by decide, by decide⟩
  · constructor
    · rintro ⟨⟨a, b⟩, hr⟩
      by_cases hshape : ∃ x y, splitOnChar '/' s = [x, y]
      · obtain ⟨x, y, hsp⟩ := hshape
        rw [parse_two s x y hsp] at hr
        by_cases ht : (isToken x && isToken y) = true
        · obtain ⟨h1, h2⟩ := Bool.and_eq_true .. |>.mp ht
          exact ⟨x, y, hsp, h1, h2⟩
        · rw [if_neg ht] at hr
          cases hr
      · push_neg at hshape
        rw [parse_badshape s hshape] at hr
        cases hr
    · rintro ⟨x, y, hsp, hx, hy⟩
      exact ⟨((x, y)), by rw [parse_two s x y hsp, if_pos (by simp [hx, hy])]⟩
  · intro x y h
    by_cases hshape : ∃ a b, splitOnChar '/' s = [a, b]
    · obtain ⟨a, b, hsp⟩ := hshape
      rw [parse_two s a b hsp] at h
      by_cases ht : (isToken a && isToken b) = true
      · rw [if_pos ht] at h
        have hab := Option.some.inj h
        simp only [Prod.mk.injEq] at hab
        obtain ⟨rfl, rfl⟩ := hab
        exact hsp
      · rw [if_neg ht] at h
        cases h
    · push_neg at hshape
      rw [parse_badshape s hshape] at h
      cases h

/-- Witness for C8 at `text/html`. -/
theorem C8_witness :
    parseMimeTypeWithoutParameter (("text/html").data)
      = (if isToken (("text").data) && isToken (("html").data) then
          some (((("text").data, ("html").data))) else none) :=
  (C8_parse_type (("text/html").data)).1 (("text").data) (("html").data)
    (by decide)

/-- C9: a string is a valid top-level MIME type iff it equals one of the nine
registered top-level types up to ASCII case, or it is longer than two
characters and starts with `x-` case-insensitively; `x-custom` and `TEXT`
are valid, `bogus` is not. -/
theorem C9_top_level_type (s : Str) :
    (isValidTopLevelMimeType s = true ↔
      (∃ t ∈ legal_top_level_types, eqCaseIns s t = true)
      ∨ (2 < s.length ∧ startsWithCaseIns s (("x-").data) = true))
    ∧ isValidTopLevelMimeType (("x-custom").data) = true
    ∧ isValidTopLevelMimeType (("bogus").data) = false
    ∧ isValidTopLevelMimeType (("TEXT").data) = true := by
  refine ⟨?_, by decide, by decide, by decide⟩
  have hfix : ∀ t ∈ legal_top_level_types, t.map lowerChar = t := by decide
  unfold isValidTopLevelMimeType
  simp only [Bool.or_eq_true, Bool.and_eq_true, List.any_eq_true,
    decide_eq_true_eq]
  apply or_congr
  · constructor
    · rintro ⟨t, ht, hbeq⟩
      exact ⟨t, ht, by simpa [eqCaseIns, hfix t ht] using hbeq⟩
    · rintro ⟨t, ht, hbeq⟩
      exact ⟨t, ht, by simpa [eqCaseIns, hfix t ht] using hbeq⟩
  · exact Iff.rfl

/-- Witness for C9 at the mixed-case string `TEXT`. -/
theorem C9_witness : isValidTopLevelMimeType (("TEXT").data) = true :=
  (C9_top_level_type (("TEXT").data)).1.mpr
    (Or.inl ⟨("text").data, by decide, by decide⟩)
